import Mathlib

/-!
Verification of the Transcode-no-Jutsu job dispatcher against its
natural-language specification.

The development shallowly embeds the Rust sources:
  * `src/src/main.rs` — the interactive dispatcher: `AppState` (the job
    registry), the SQS poller body, `run_app` key handling, and
    `run_and_delete` (ECS launch + SQS ack).
  * `src/container/src/main.rs` — the transcoding worker.
  * `src/backend/src/upload.rs` — the upload ingress handler.
Effectful boundaries (SQS, ECS, S3, ffmpeg, the terminal) are modelled by
explicit outcome parameters; everything else follows the source line by line.
-/

namespace Transcode

/-- One pending job, mirroring `struct VideoMessage` in `src/src/main.rs`:
a source bucket, an object key, and the SQS receipt handle borrowed from
the originating message. -/
structure VideoMessage where
  bucket : String
  key : String
  receipt_handle : String
deriving DecidableEq, Repr

/-- The shared registry, mirroring `struct AppState`: an ordered list of
pending messages plus a selection cursor. -/
structure AppState where
  messages : List VideoMessage
  selected : Nat
deriving DecidableEq, Repr

/-- Mirrors `AppState::new`. -/
def AppState.new : AppState := { messages := [], selected := 0 }

/-- Mirrors `AppState::push_message`: append at the end; if the registry
had been empty (length is now 1) the selection resets to 0. -/
def AppState.push_message (st : AppState) (m : VideoMessage) : AppState :=
  let msgs := st.messages ++ [m]
  { messages := msgs
    selected := if msgs.length = 1 then 0 else st.selected }

/-- Mirrors `AppState::remove_selected`: `None` on an empty registry;
otherwise the cursor is first clamped to `len - 1` if it is out of range
(the clamp is a real assignment that persists), then the element at the
cursor is removed. -/
def AppState.remove_selected (st : AppState) : Option VideoMessage × AppState :=
  if st.messages.isEmpty then
    (none, st)
  else
    let sel := if st.messages.length ≤ st.selected then st.messages.length - 1
               else st.selected
    (st.messages.get? sel,
     { messages := st.messages.eraseIdx sel, selected := sel })

/-- Mirrors `AppState::next`: on a non-empty registry move the cursor down,
clamped to `len - 1`. -/
def AppState.next (st : AppState) : AppState :=
  if st.messages.isEmpty then st
  else { st with selected := min (st.selected + 1) (st.messages.length - 1) }

/-- Mirrors `AppState::previous`: on a non-empty registry move the cursor up,
stopping at 0. -/
def AppState.previous (st : AppState) : AppState :=
  if st.messages.isEmpty then st
  else if st.selected = 0 then { st with selected := 0 }
  else { st with selected := st.selected - 1 }

/-- One registry operation, as named by the specification. -/
inductive Op where
  | push (m : VideoMessage)
  | selectNext
  | selectPrevious
  | removeSelected
deriving DecidableEq, Repr

/-- Apply one operation to the registry state. -/
def applyOp (st : AppState) : Op → AppState
  | .push m => st.push_message m
  | .selectNext => st.next
  | .selectPrevious => st.previous
  | .removeSelected => st.remove_selected.2

/-- Apply a sequence of operations starting from a given state. -/
def applyOps (st : AppState) (ops : List Op) : AppState :=
  ops.foldl applyOp st

/-- A JSON value, the carrier for decoded message bodies. -/
inductive Json where
  | null
  | bool (b : Bool)
  | num (n : Int)
  | str (s : String)
  | arr (elems : List Json)
  | obj (fields : List (String × Json))

/-- Look up a field of a JSON object; `none` on non-objects or missing
fields. Extra fields are ignored, as serde does by default. -/
def Json.getField : Json → String → Option Json
  | .obj fields, name => fields.lookup name
  | _, _ => none

/-- Modelled from the spec: the `types` module with `S3Event` is not under
`src/`, only its consumer in the poller is. Per section 6 each record holds
a nested `{ bucket: { name: string }, object: { key: string } }` under `s3`
(scenario A shows the exact shape). `S3Bucket` carries the bucket name. -/
structure S3Bucket where
  name : String
deriving DecidableEq, Repr

/-- Modelled from the spec: the object half of a record, carrying the key. -/
structure S3Object where
  key : String
deriving DecidableEq, Repr

/-- Modelled from the spec: the `s3` entity of a record, pairing the source
bucket with the object. -/
structure S3Entity where
  bucket : S3Bucket
  object : S3Object
deriving DecidableEq, Repr

/-- Modelled from the spec: one record of a notification payload. -/
structure S3Record where
  s3 : S3Entity
deriving DecidableEq, Repr

/-- Modelled from the spec: a notification payload, an object with a
`records` array. -/
structure S3Event where
  records : List S3Record
deriving DecidableEq, Repr

/-- Modelled from the spec: decode one record. A missing required field or
a field of the wrong shape is a decode error; extra fields are ignored. -/
def decodeRecord (j : Json) : Except String S3Record :=
  match j.getField "s3" with
  | some s3json =>
    match s3json.getField "bucket", s3json.getField "object" with
    | some bjson, some ojson =>
      match bjson.getField "name", ojson.getField "key" with
      | some (.str name), some (.str key) =>
        .ok { s3 := { bucket := { name := name }, object := { key := key } } }
      | _, _ => .error "record: bucket name or object key missing"
    | _, _ => .error "record: bucket or object missing"
  | none => .error "record: s3 field missing"

/-- Decode each element of the `records` array in order, failing on the
first bad record. -/
def decodeRecords : List Json → Except String (List S3Record)
  | [] => .ok []
  | j :: rest =>
    match decodeRecord j, decodeRecords rest with
    | .ok r, .ok rs => .ok (r :: rs)
    | .error e, _ => .error e
    | _, .error e => .error e

/-- Modelled from the spec: decode a whole payload (`serde_json::from_str::
<S3Event>` on an already-parsed JSON value). -/
def decodeEvent (j : Json) : Except String S3Event :=
  match j.getField "records" with
  | some (.arr elems) =>
    match decodeRecords elems with
    | .ok rs => .ok { records := rs }
    | .error e => .error e
  | _ => .error "payload: records array missing"

/-- A raw message body: `none` stands for text that is not JSON at all
(e.g. the literal `"\x7bnot json"`), `some j` for a body parsing to `j`. -/
def decodeBody : Option Json → Except String S3Event
  | none => .error "invalid JSON"
  | some j => decodeEvent j

/-- The poller's per-record construction (`src/src/main.rs` lines 120-125):
each record becomes a `VideoMessage` with the record's bucket name, the
record's object key, and the message's receipt handle. -/
def jobsOfEvent (ev : S3Event) (receipt : String) : List VideoMessage :=
  ev.records.map fun rec =>
    { bucket := rec.s3.bucket.name
      key := rec.s3.object.key
      receipt_handle := receipt }

/-- One poller iteration on one received message (`src/src/main.rs` lines
116-143): on decode success every job is pushed in order; on decode failure
the error is logged and the state is untouched. The second component
records whether an ack (queue delete) was attempted — the poller never
acks, so it is `false` on both branches. -/
def pollerHandleBody (st : AppState) (body : Option Json) (receipt : String) :
    AppState × Bool :=
  match decodeBody body with
  | .ok ev => ((jobsOfEvent ev receipt).foldl AppState.push_message st, false)
  | .error _ => (st, false)

/-- A key/value pair of a container environment override, mirroring the
ECS `KeyValuePair` built in `run_and_delete`. -/
structure KeyValuePair where
  name : String
  value : String
deriving DecidableEq, Repr

/-- Mirrors the environment-override construction in `run_and_delete`
(`src/src/main.rs` lines 329-359). The four `Option String` arguments are
the process environment variables `AWS_ACCESS_KEY_ID`,
`AWS_SECRET_ACCESS_KEY`, `AWS_REGION`, `AWS_SESSION_TOKEN` (`none` =
unset); `unwrap_or_default` maps unset to the empty string and the region
defaults to `us-east-1`. The session token entry is pushed only when the
token string is non-empty. -/
def build_env_vars (jobKey : String)
    (accessKeyVar secretKeyVar regionVar sessionTokenVar : Option String) :
    List KeyValuePair :=
  let aws_access_key := accessKeyVar.getD ""
  let aws_secret_key := secretKeyVar.getD ""
  let aws_region := regionVar.getD "us-east-1"
  let aws_session_token := sessionTokenVar.getD ""
  let base := [
    { name := "SOURCE_KEY", value := jobKey },
    { name := "AWS_ACCESS_KEY_ID", value := aws_access_key },
    { name := "AWS_SECRET_ACCESS_KEY", value := aws_secret_key },
    { name := "AWS_REGION", value := aws_region }]
  if aws_session_token ≠ "" then
    base ++ [{ name := "AWS_SESSION_TOKEN", value := aws_session_token }]
  else base

/-- Outcome of the `ecs_client.run_task` call: either an SDK-level error,
or an `Ok` response carrying optional `tasks` (task ARNs) and optional
`failures` lists — ECS reports capacity/placement rejections as `Ok`
responses whose `failures` list is populated and whose `tasks` list is
empty or absent. -/
inductive RunTaskResp where
  | ok (tasks : Option (List String)) (failures : Option (List String))
  | err (e : String)
deriving DecidableEq, Repr

/-- A job reached the Launched state in the spec's sense: the backend
accepted the submission, i.e. the response carries at least one started
task. -/
def launched : RunTaskResp → Bool
  | .ok (some (_ :: _)) _ => true
  | _ => false

/-- An externally visible action of `run_and_delete`: the single
`run_task` submission, or the `delete_message` ack carrying the receipt
handle. -/
inductive Action where
  | runTask (key : String)
  | deleteMessage (receipt : String)
deriving DecidableEq, Repr

/-- Mirrors the control flow of `run_and_delete` (`src/src/main.rs` lines
319-425) as a trace of actions plus the returned result. Exactly one
`run_task` call is made. On an SDK error the function returns `Err` before
reaching the delete. On any `Ok` response — whether it reports started
tasks, only failures, or neither — control falls through to the delete,
which is attempted whenever the receipt handle is non-empty. A failed
delete is only logged, so the return value is `Ok` on that whole branch. -/
def run_and_delete (job : VideoMessage) (resp : RunTaskResp) :
    List Action × Bool :=
  match resp with
  | .err _ => ([.runTask job.key], false)
  | .ok _ _ =>
    if job.receipt_handle ≠ "" then
      ([.runTask job.key, .deleteMessage job.receipt_handle], true)
    else
      ([.runTask job.key], true)

/-- Whether a trace contains an ack attempt. -/
def ackAttempted (tr : List Action) : Bool :=
  tr.any fun a => match a with
    | .deleteMessage _ => true
    | _ => false

/-- Number of launch submissions in a trace. -/
def submitCount (tr : List Action) : Nat :=
  tr.countP fun a => match a with
    | .runTask _ => true
    | _ => false

/-- A keyboard event of the foreground loop, as matched in `run_app`
(`src/src/main.rs` lines 271-310). -/
inductive KeyEvent where
  | down
  | up
  | enter
  | quit
  | other
deriving DecidableEq, Repr

/-- Mirrors the Enter branch of `run_app`: pop the selected job under the
lock; a launch task is spawned only when a job came out. -/
def handleEnter (st : AppState) : AppState × Option VideoMessage :=
  let (mj, st2) := st.remove_selected
  (st2, mj)

/-- One key-event step of the foreground loop in `run_app`: the new state,
whether the loop continues (`false` only for `q`), and the job handed to a
spawned launch task (only an Enter on a non-empty registry yields one). -/
def foregroundStep (st : AppState) : KeyEvent →
    AppState × Bool × Option VideoMessage
  | .quit => (st, false, none)
  | .down => (st.next, true, none)
  | .up => (st.previous, true, none)
  | .enter =>
    let (st2, mj) := handleEnter st
    (st2, true, mj)
  | .other => (st, true, none)

/-- The full effect of one Enter key-press followed by the spawned launch
task running to completion with ECS outcome `resp`: the registry state
after the pop (the spawned task never touches the registry again, so the
state does not depend on `resp`), the launch task's action trace, and its
result. -/
def enterFlow (st : AppState) (resp : RunTaskResp) :
    AppState × List Action × Bool :=
  match handleEnter st with
  | (st2, none) => (st2, [], true)
  | (st2, some job) =>
    let (tr, res) := run_and_delete job resp
    (st2, tr, res)

/-- The fixed resolution table of the transcoding worker
(`src/container/src/main.rs`): profile name, scale filter, video bitrate. -/
def resolutions : List (String × String × String) :=
  [("480p", "scale=854:480", "1000k"),
   ("720p", "scale=1280:720", "2500k"),
   ("1080p", "scale=1920:1080", "5000k")]

/-- Outcomes of the worker's effectful steps, supplied externally: whether
the S3 download, each per-profile ffmpeg invocation, and each per-profile
upload succeed. -/
structure WorkerOracle where
  getObjectOk : Bool
  transcodeOk : String → Bool
  uploadOk : String → Bool

/-- The worker's per-profile loop (`src/container/src/main.rs` lines
33-53), threading the set of local files currently existing in `/tmp`.
A successful transcode creates the profile's output file; a successful
upload is followed by `remove_file` on that output. Any failing step
propagates with `?`, returning immediately with whatever files exist —
no cleanup runs on the error path. -/
def processProfiles (o : WorkerOracle) (fs : List String) :
    List (String × String × String) → List String × Bool
  | [] => (fs.erase "/tmp/input.mp4", true)
  | (name, _, _) :: rest =>
    let output_path := "/tmp/output_" ++ name ++ ".mp4"
    if o.transcodeOk name then
      let fs2 := fs ++ [output_path]
      if o.uploadOk name then processProfiles o (fs2.erase output_path) rest
      else (fs2, false)
    else (fs, false)

/-- Mirrors the worker's `main`: download `/tmp/input.mp4` (a failing
`get_object` returns before the local file is created), run the profile
loop, and on full success remove the input file last. Returns the files
left in `/tmp` at process exit and whether the run succeeded. -/
def workerMain (o : WorkerOracle) : List String × Bool :=
  if o.getObjectOk then processProfiles o ["/tmp/input.mp4"] resolutions
  else ([], false)

/-- One field of a multipart payload as seen by `upload_video`
(`src/backend/src/upload.rs`): the name from its content disposition
(`get_name` returns an `Option`) and its data chunks as byte lists. -/
structure MpField where
  name : Option String
  chunks : List (List Nat)

/-- Mirrors the accumulation loop of `upload_video`: bytes of every field
whose content-disposition name is `video` are appended, in order; all
other fields are skipped. -/
def collectVideoBytes (fields : List MpField) : List Nat :=
  fields.foldl
    (fun acc f => if f.name = some "video" then acc ++ f.chunks.flatten else acc)
    []

/-- The `put_object` call issued by the upload handler. -/
structure PutObjectCall where
  bucket : String
  key : String
  body : List Nat
deriving DecidableEq, Repr

/-- Mirrors `upload_video` after the accumulation loop: a fresh key
`upload-<uuid>.mp4` is generated unconditionally, `put_object` is always
issued with the accumulated bytes (possibly zero), and the response is
`200 Uploaded as <key>` when the store accepts, or a 500 error when it
rejects. -/
def upload_video (fields : List MpField) (uuid : String) (putOk : Bool) :
    PutObjectCall × Except String String :=
  let file_name := "upload-" ++ uuid ++ ".mp4"
  ({ bucket := "temp-video-storage-0306", key := file_name
     body := collectVideoBytes fields },
   if putOk then .ok ("Uploaded as " ++ file_name) else .error "Upload failed")

/-- Each registry operation preserves the invariant that the cursor is at
most the length of the list (it may equal the length transiently, right
after a removal). -/
theorem applyOp_selected_le (st : AppState) (op : Op)
    (h : st.selected ≤ st.messages.length) :
    (applyOp st op).selected ≤ (applyOp st op).messages.length := by
  cases op with
  | push m =>
    dsimp [applyOp, AppState.push_message]
    split
    · exact Nat.zero_le _
    · simp only [List.length_append, List.length_cons, List.length_nil]
      omega
  | selectNext =>
    dsimp [applyOp, AppState.next]
    split
    · exact h
    · dsimp only
      omega
  | selectPrevious =>
    dsimp [applyOp, AppState.previous]
    split
    · exact h
    · split
      · exact Nat.zero_le _
      · dsimp only
        omega
  | removeSelected =>
    dsimp [applyOp, AppState.remove_selected]
    split
    · exact h
    · rename_i hne
      have hnil : st.messages ≠ [] := by
        simpa [List.isEmpty_iff] using hne
      have hL : 1 ≤ st.messages.length := List.length_pos.mpr hnil
      set sel := if st.messages.length ≤ st.selected then st.messages.length - 1
                 else st.selected with hsel_def
      have hsel : sel < st.messages.length := by
        rw [hsel_def]; split <;> omega
      dsimp only
      rw [List.length_eraseIdx, if_pos hsel]
      omega

/-- C1: the claim as stated is FALSE. Push two jobs, move the cursor to
the second, remove it: the registry still holds one job but the cursor is
left at 1, outside `[0, len-1] = [0, 0]` — `remove_selected` re-clamps
lazily on its next call instead of eagerly after the mutation. -/
theorem C1_counterexample :
    ¬ ((applyOps AppState.new
          [Op.push { bucket := "b", key := "k1", receipt_handle := "r" },
           Op.push { bucket := "b", key := "k2", receipt_handle := "r" },
           Op.selectNext, Op.removeSelected]).messages = [] ∨
       (applyOps AppState.new
          [Op.push { bucket := "b", key := "k1", receipt_handle := "r" },
           Op.push { bucket := "b", key := "k2", receipt_handle := "r" },
           Op.selectNext, Op.removeSelected]).selected <
       (applyOps AppState.new
          [Op.push { bucket := "b", key := "k1", receipt_handle := "r" },
           Op.push { bucket := "b", key := "k2", receipt_handle := "r" },
           Op.selectNext, Op.removeSelected]).messages.length) := by
  decide

/-- C1 amended: after every sequence of push/selectNext/selectPrevious/
removeSelected starting from the empty registry, the selection index is
within `[0, len]` — it can equal `len` immediately after a removal, and
every operation that dereferences the index clamps it into `[0, len-1]`
first, so no access is ever out of bounds. -/
theorem C1_amended (ops : List Op) :
    (applyOps AppState.new ops).selected ≤
      (applyOps AppState.new ops).messages.length := by
  have key : ∀ (l : List Op) (st : AppState),
      st.selected ≤ st.messages.length →
      (applyOps st l).selected ≤ (applyOps st l).messages.length := by
    intro l
    induction l with
    | nil => intro st h; exact h
    | cons op rest ih =>
      intro st h
      simpa [applyOps] using ih (applyOp st op) (applyOp_selected_le st op h)
  exact key ops AppState.new (by simp [AppState.new])

/-- C9: on a non-empty registry `remove_selected` always returns a job
(the removal position is always in bounds), and when the stored cursor is
out of range (at least `len`) it is clamped to `len - 1` first, so the
removed job is the last one and the rest of the list is untouched. -/
theorem C9_remove_selected_clamps (st : AppState) (h : st.messages ≠ []) :
    (∃ v, st.remove_selected.1 = some v) ∧
    (st.messages.length ≤ st.selected →
      st.remove_selected.1 = st.messages.getLast? ∧
      st.remove_selected.2.messages = st.messages.dropLast) := by
  have hL : 1 ≤ st.messages.length := List.length_pos.mpr h
  have hemp : st.messages.isEmpty = false := by
    simpa [List.isEmpty_iff] using h
  constructor
  · dsimp [AppState.remove_selected]
    rw [if_neg (by simp [hemp])]
    set sel := if st.messages.length ≤ st.selected then st.messages.length - 1
               else st.selected with hsel_def
    have hsel : sel < st.messages.length := by
      rw [hsel_def]; split <;> omega
    exact ⟨_, by rw [List.get?_eq_getElem?, List.getElem?_eq_getElem hsel]⟩
  · intro hout
    dsimp [AppState.remove_selected]
    rw [if_neg (by simp [hemp]), if_pos hout]
    constructor
    · rw [List.get?_eq_getElem?, List.getLast?_eq_getElem?]
    · rw [← List.dropLast_eq_eraseIdx (by omega)]

/-- Witness state for C9: one job with the cursor stranded at 5. -/
def outOfRangeState : AppState :=
  { messages := [{ bucket := "b", key := "k", receipt_handle := "r" }]
    selected := 5 }

/-- Witness for C9 at a concrete out-of-range state. -/
theorem C9_remove_selected_clamps_witness :
    outOfRangeState.messages ≠ [] ∧
    ((∃ v, outOfRangeState.remove_selected.1 = some v) ∧
     (outOfRangeState.messages.length ≤ outOfRangeState.selected →
       outOfRangeState.remove_selected.1 = outOfRangeState.messages.getLast? ∧
       outOfRangeState.remove_selected.2.messages =
         outOfRangeState.messages.dropLast)) :=
  ⟨by decide, C9_remove_selected_clamps outOfRangeState (by decide)⟩

/-- C4: on an empty registry `remove_selected` returns `none` and leaves
the state unchanged (total, no fault), and an Enter key-press makes no
launch call (no job is handed to a spawned task) and the foreground loop
continues. -/
theorem C4_empty_registry (st : AppState) (h : st.messages = []) :
    st.remove_selected = (none, st) ∧
    foregroundStep st KeyEvent.enter = (st, true, none) := by
  refine ⟨?_, ?_⟩ <;>
    simp [AppState.remove_selected, foregroundStep, handleEnter, h]

/-- Witness for C4 at the initial empty state. -/
theorem C4_empty_registry_witness :
    AppState.new.messages = [] ∧
    (AppState.new.remove_selected = (none, AppState.new) ∧
     foregroundStep AppState.new KeyEvent.enter = (AppState.new, true, none)) :=
  ⟨rfl, C4_empty_registry AppState.new rfl⟩

/-- Whether the `run_task` call returned an `Ok` response at the SDK
level (regardless of what the response reports). -/
def RunTaskResp.isOk : RunTaskResp → Bool
  | .ok _ _ => true
  | .err _ => false

/-- C2: the claim as stated is FALSE. ECS answers `run_task` with an `Ok`
response whose `tasks` list is absent and whose `failures` list reports a
capacity rejection: no job was launched, yet `run_and_delete` falls
through to `delete_message` and acks the message. -/
theorem C2_counterexample :
    ackAttempted (run_and_delete
        { bucket := "b", key := "movie.mp4", receipt_handle := "r1" }
        (RunTaskResp.ok none (some ["capacity"]))).1 = true ∧
    launched (RunTaskResp.ok none (some ["capacity"])) = false := by
  decide

/-- C2 amended: the ack for a message is attempted exactly when the single
job being launched got an SDK-level `Ok` response from `run_task` — even
one reporting only failures and no started task — and the job's receipt
handle is non-empty; sibling jobs decoded from the same message are never
consulted. An SDK-level `run_task` error (`isOk = false`) leaves the
message un-acked. -/
theorem C2_amended (job : VideoMessage) (resp : RunTaskResp) :
    ackAttempted (run_and_delete job resp).1 =
      (resp.isOk && !(job.receipt_handle == "")) := by
  cases resp with
  | err e => simp [run_and_delete, ackAttempted, RunTaskResp.isOk]
  | ok tasks failures =>
    by_cases hr : job.receipt_handle = "" <;>
      simp [run_and_delete, ackAttempted, RunTaskResp.isOk, hr]

/-- C5: on a decode error (the body is not JSON, or its JSON does not
match the notification schema) the poller leaves the registry unchanged
and attempts no ack, and the step returns normally (the loop continues). -/
theorem C5_decode_error_leaves_registry (st : AppState) (body : Option Json)
    (receipt : String) (h : ∃ e, decodeBody body = Except.error e) :
    pollerHandleBody st body receipt = (st, false) := by
  obtain ⟨e, he⟩ := h
  simp [pollerHandleBody, he]

/-- Witness for C5: the literal non-JSON body of scenario B against a
one-job registry. -/
theorem C5_decode_error_leaves_registry_witness :
    (∃ e, decodeBody none = Except.error e) ∧
    pollerHandleBody outOfRangeState none "r" = (outOfRangeState, false) :=
  ⟨⟨"invalid JSON", rfl⟩,
   C5_decode_error_leaves_registry outOfRangeState none "r"
     ⟨"invalid JSON", rfl⟩⟩

/-- The clamped removal index of `remove_selected` on a non-empty
registry. -/
def clampSel (st : AppState) : Nat :=
  if st.messages.length ≤ st.selected then st.messages.length - 1
  else st.selected

/-- On a non-empty registry `remove_selected` removes exactly the element
at the clamped index. -/
theorem remove_selected_eq (st : AppState) (h : st.messages ≠ []) :
    st.remove_selected =
      (st.messages.get? (clampSel st),
       { messages := st.messages.eraseIdx (clampSel st)
         selected := clampSel st }) := by
  have hemp : st.messages.isEmpty = false := by
    simpa [List.isEmpty_iff] using h
  simp [AppState.remove_selected, clampSel, hemp]

/-- The clamped index is in bounds on a non-empty registry. -/
theorem clampSel_lt (st : AppState) (h : st.messages ≠ []) :
    clampSel st < st.messages.length := by
  have := List.length_pos.mpr h
  unfold clampSel
  split <;> omega

/-- Every call of `run_and_delete` performs exactly one `run_task`
submission, on every outcome. -/
theorem run_and_delete_submitCount (job : VideoMessage) (resp : RunTaskResp) :
    submitCount (run_and_delete job resp).1 = 1 := by
  cases resp with
  | err e => simp [run_and_delete, submitCount]
  | ok tasks failures =>
    by_cases hr : job.receipt_handle = "" <;>
      simp [run_and_delete, submitCount, hr]

/-- C6: selecting a job on a non-empty registry pops it before the launch
is attempted: the resulting registry state is the popped state no matter
how the launch turns out (so a failed launch never re-enqueues the job),
the launch task performs exactly one submission, the registry shrinks by
exactly one, and the foreground loop continues. -/
theorem C6_one_submit_no_retry (st : AppState) (resp : RunTaskResp)
    (h : st.messages ≠ []) :
    (enterFlow st resp).1 = (handleEnter st).1 ∧
    submitCount (enterFlow st resp).2.1 = 1 ∧
    (enterFlow st resp).1.messages.length + 1 = st.messages.length ∧
    (foregroundStep st KeyEvent.enter).2.1 = true := by
  have hrs := remove_selected_eq st h
  have hlt := clampSel_lt st h
  have hv : st.messages[clampSel st]? =
      some (st.messages.get ⟨clampSel st, hlt⟩) := by
    rw [List.getElem?_eq_getElem hlt]
    simp [List.get_eq_getElem]
  have hL : 1 ≤ st.messages.length := List.length_pos.mpr h
  have hflow : enterFlow st resp =
      ({ messages := st.messages.eraseIdx (clampSel st)
         selected := clampSel st },
       run_and_delete (st.messages.get ⟨clampSel st, hlt⟩) resp) := by
    simp [enterFlow, handleEnter, hrs, hv]
  refine ⟨?_, ?_, ?_, ?_⟩
  · simp [hflow, handleEnter, hrs]
  · simp [hflow, run_and_delete_submitCount]
  · simp [hflow, List.length_eraseIdx, hlt]
    omega
  · simp [foregroundStep, handleEnter, hrs, hv]

/-- Witness state for C6: two pending jobs, cursor on the first. -/
def twoJobState : AppState :=
  { messages := [{ bucket := "b", key := "k1", receipt_handle := "r1" },
                 { bucket := "b", key := "k2", receipt_handle := "r2" }]
    selected := 0 }

/-- Witness for C6 at a concrete state with a failing launch. -/
theorem C6_one_submit_no_retry_witness :
    twoJobState.messages ≠ [] ∧
    ((enterFlow twoJobState (RunTaskResp.err "boom")).1 =
        (handleEnter twoJobState).1 ∧
     submitCount (enterFlow twoJobState (RunTaskResp.err "boom")).2.1 = 1 ∧
     (enterFlow twoJobState (RunTaskResp.err "boom")).1.messages.length + 1 =
        twoJobState.messages.length ∧
     (foregroundStep twoJobState KeyEvent.enter).2.1 = true) :=
  ⟨by decide, C6_one_submit_no_retry twoJobState (RunTaskResp.err "boom")
      (by decide)⟩

/-- Successful record-list decoding preserves the number of records and
decodes them pointwise, in order. -/
theorem decodeRecords_spec :
    ∀ (elems : List Json) (rs : List S3Record),
      decodeRecords elems = Except.ok rs →
      rs.length = elems.length ∧
      ∀ i rj, elems.get? i = some rj →
        ∃ r, rs.get? i = some r ∧ decodeRecord rj = Except.ok r := by
  intro elems
  induction elems with
  | nil =>
    intro rs h
    simp [decodeRecords] at h
    subst h
    simp
  | cons j rest ih =>
    intro rs h
    cases hj : decodeRecord j with
    | error e => simp [decodeRecords, hj] at h
    | ok r =>
      cases hrest : decodeRecords rest with
      | error e => simp [decodeRecords, hj, hrest] at h
      | ok rs2 =>
        simp [decodeRecords, hj, hrest] at h
        subst h
        obtain ⟨hlen, hpt⟩ := ih rs2 hrest
        refine ⟨by simp [hlen], ?_⟩
        intro i rj hi
        cases i with
        | zero =>
          simp at hi
          subst hi
          exact ⟨r, by simp, hj⟩
        | succ n =>
          simp only [List.get?_cons_succ] at hi ⊢
          exact hpt n rj hi

/-- C3: whenever a payload decodes successfully, its `records` array has
exactly as many entries as the poller makes jobs, and the i-th job is
built from exactly the bucket name and object key that the i-th JSON
record decodes to — both strings unchanged, the receipt handle attached
verbatim. -/
theorem C3_decode_preserves_records (j : Json) (ev : S3Event)
    (receipt : String) (h : decodeEvent j = Except.ok ev) :
    ∃ elems, j.getField "records" = some (Json.arr elems) ∧
      (jobsOfEvent ev receipt).length = elems.length ∧
      ∀ i rj, elems.get? i = some rj →
        ∃ job, (jobsOfEvent ev receipt).get? i = some job ∧
          decodeRecord rj = Except.ok
            { s3 := { bucket := { name := job.bucket }
                      object := { key := job.key } } } ∧
          job.receipt_handle = receipt := by
  cases hf : j.getField "records" with
  | none => simp [decodeEvent, hf] at h
  | some rv =>
    cases rv with
    | arr elems =>
      cases hrs : decodeRecords elems with
      | error e => simp [decodeEvent, hf, hrs] at h
      | ok rs =>
        simp [decodeEvent, hf, hrs] at h
        obtain ⟨hlen, hpt⟩ := decodeRecords_spec elems rs hrs
        subst h
        refine ⟨elems, rfl, ?_, ?_⟩
        · simp [jobsOfEvent, hlen]
        · intro i rj hi
          obtain ⟨r, hr, hdec⟩ := hpt i rj hi
          refine ⟨{ bucket := r.s3.bucket.name, key := r.s3.object.key
                    receipt_handle := receipt }, ?_, ?_, rfl⟩
          · rw [List.get?_eq_getElem?] at hr
            simp [jobsOfEvent, List.get?_eq_getElem?, List.getElem?_map, hr]
          · exact hdec
    | null => simp [decodeEvent, hf] at h
    | bool b => simp [decodeEvent, hf] at h
    | num n => simp [decodeEvent, hf] at h
    | str s => simp [decodeEvent, hf] at h
    | obj fields => simp [decodeEvent, hf] at h

/-- The scenario A payload: one record naming bucket `b` and key
`movie.mp4`. -/
def scenarioAPayload : Json :=
  Json.obj [("records", Json.arr
    [Json.obj [("s3", Json.obj
      [("bucket", Json.obj [("name", Json.str "b")]),
       ("object", Json.obj [("key", Json.str "movie.mp4")])])]])]

/-- The event scenario A decodes to. -/
def scenarioAEvent : S3Event :=
  { records := [{ s3 := { bucket := { name := "b" }
                          object := { key := "movie.mp4" } } }] }

/-- Witness for C3 on the scenario A payload. -/
theorem C3_decode_preserves_records_witness :
    decodeEvent scenarioAPayload = Except.ok scenarioAEvent ∧
    (∃ elems, scenarioAPayload.getField "records" = some (Json.arr elems) ∧
      (jobsOfEvent scenarioAEvent "tok").length = elems.length ∧
      ∀ i rj, elems.get? i = some rj →
        ∃ job, (jobsOfEvent scenarioAEvent "tok").get? i = some job ∧
          decodeRecord rj = Except.ok
            { s3 := { bucket := { name := job.bucket }
                      object := { key := job.key } } } ∧
          job.receipt_handle = "tok") :=
  ⟨rfl, C3_decode_preserves_records scenarioAPayload scenarioAEvent "tok" rfl⟩

/-- C7: every launch's environment override list carries `SOURCE_KEY` set
to the job's object key plus the three credential entries
(`AWS_ACCESS_KEY_ID`, `AWS_SECRET_ACCESS_KEY`, `AWS_REGION` — the spec's
`ACCESS_KEY_ID` / `SECRET_ACCESS_KEY` / `REGION` credential fields), and
carries an `AWS_SESSION_TOKEN` entry exactly when the process environment
holds a non-empty session token. -/
theorem C7_launch_env_contract (jobKey : String)
    (a s r t : Option String) :
    KeyValuePair.mk "SOURCE_KEY" jobKey ∈ build_env_vars jobKey a s r t ∧
    KeyValuePair.mk "AWS_ACCESS_KEY_ID" (a.getD "") ∈
      build_env_vars jobKey a s r t ∧
    KeyValuePair.mk "AWS_SECRET_ACCESS_KEY" (s.getD "") ∈
      build_env_vars jobKey a s r t ∧
    KeyValuePair.mk "AWS_REGION" (r.getD "us-east-1") ∈
      build_env_vars jobKey a s r t ∧
    ((∃ v, KeyValuePair.mk "AWS_SESSION_TOKEN" v ∈
        build_env_vars jobKey a s r t) ↔ t.getD "" ≠ "") := by
  by_cases ht : t.getD "" = "" <;>
    simp [build_env_vars, ht, KeyValuePair.mk.injEq]

/-- Oracle of a run whose ffmpeg invocations all fail. -/
def transcodeFailOracle : WorkerOracle :=
  { getObjectOk := true
    transcodeOk := fun _ => false
    uploadOk := fun _ => true }

/-- C8: the claim as stated is FALSE. When the first ffmpeg invocation
fails, the worker propagates the error with `?` and exits: the downloaded
`/tmp/input.mp4` is still on disk at the end of the run — no cleanup runs
on the failure path. -/
theorem C8_counterexample :
    workerMain transcodeFailOracle = (["/tmp/input.mp4"], false) ∧
    (workerMain transcodeFailOracle).1 ≠ [] := by
  decide

/-- C8 amended: temporary-file cleanup is guaranteed only on a fully
successful run — each profile's output file is removed right after its
upload and the input file is removed last, leaving nothing; a failing
download, transcode, or upload step instead aborts the run immediately,
leaving the files that exist at that point (in particular the downloaded
input) behind. -/
theorem C8_cleanup_on_success (o : WorkerOracle)
    (hd : o.getObjectOk = true)
    (h1 : o.transcodeOk "480p" = true) (h2 : o.transcodeOk "720p" = true)
    (h3 : o.transcodeOk "1080p" = true)
    (h4 : o.uploadOk "480p" = true) (h5 : o.uploadOk "720p" = true)
    (h6 : o.uploadOk "1080p" = true) :
    workerMain o = ([], true) := by
  simp [workerMain, resolutions, processProfiles, hd, h1, h2, h3, h4, h5, h6]

/-- Oracle of a fully successful run. -/
def allOkOracle : WorkerOracle :=
  { getObjectOk := true
    transcodeOk := fun _ => true
    uploadOk := fun _ => true }

/-- Witness for the amended C8 on a fully successful run. -/
theorem C8_cleanup_on_success_witness :
    allOkOracle.getObjectOk = true ∧
    allOkOracle.transcodeOk "480p" = true ∧
    allOkOracle.transcodeOk "720p" = true ∧
    allOkOracle.transcodeOk "1080p" = true ∧
    allOkOracle.uploadOk "480p" = true ∧
    allOkOracle.uploadOk "720p" = true ∧
    allOkOracle.uploadOk "1080p" = true ∧
    workerMain allOkOracle = ([], true) :=
  ⟨rfl, rfl, rfl, rfl, rfl, rfl, rfl,
   C8_cleanup_on_success allOkOracle rfl rfl rfl rfl rfl rfl rfl⟩

/-- If no multipart field is named `video`, the accumulation loop collects
no bytes. -/
theorem collectVideoBytes_eq_nil (fields : List MpField)
    (h : ∀ f ∈ fields, f.name ≠ some "video") :
    collectVideoBytes fields = [] := by
  have key : ∀ (l : List MpField) (acc : List Nat),
      (∀ f ∈ l, f.name ≠ some "video") →
      l.foldl (fun acc f =>
        if f.name = some "video" then acc ++ f.chunks.flatten else acc) acc =
      acc := by
    intro l
    induction l with
    | nil => intro acc _; rfl
    | cons f rest ih =>
      intro acc hl
      rw [List.foldl_cons, if_neg (hl f (by simp))]
      exact ih acc fun g hg => hl g (by simp [hg])
  exact key fields [] h

/-- C10: the upload handler does not require a `video` field. A multipart
request with no field of that name still triggers a `put_object` with a
zero-byte body under a fresh `upload-<uuid>.mp4` key, and (when the store
accepts) the handler responds with success naming that key. -/
theorem C10_upload_without_video_field (fields : List MpField)
    (uuid : String) (h : ∀ f ∈ fields, f.name ≠ some "video") :
    upload_video fields uuid true =
      ({ bucket := "temp-video-storage-0306"
         key := "upload-" ++ uuid ++ ".mp4"
         body := [] },
       Except.ok ("Uploaded as " ++ ("upload-" ++ uuid ++ ".mp4"))) := by
  simp [upload_video, collectVideoBytes_eq_nil fields h]

/-- A multipart request whose only fields are named `file` and nothing. -/
def noVideoFields : List MpField :=
  [{ name := some "file", chunks := [[1, 2, 3]] },
   { name := none, chunks := [[4]] }]

/-- Witness for C10 on a concrete request without a `video` field. -/
theorem C10_upload_without_video_field_witness :
    (∀ f ∈ noVideoFields, f.name ≠ some "video") ∧
    upload_video noVideoFields "1234" true =
      ({ bucket := "temp-video-storage-0306"
         key := "upload-" ++ "1234" ++ ".mp4"
         body := [] },
       Except.ok ("Uploaded as " ++ ("upload-" ++ "1234" ++ ".mp4"))) :=
  ⟨by decide, C10_upload_without_video_field noVideoFields "1234" (by decide)⟩

end Transcode
